import Mathlib

/-!
Verification of the boulder gRPC transport-credential layer
(`grpc/creds`): the server-side peer-identity check (`validateClient`),
credential construction (`NewServerCredentials`), and the
context-aware client handshake (`ClientHandshake`).

The implementation file `grpc/creds/creds.go` is not part of the
provided sources; only its test `src/grpc/creds/creds_test.go` is.
The definitions below are therefore modelled from the specification
(spec.md §3, §4.1–4.3, §6), and their doc comments say so; the test
file fixes the observable contract (sentinel errors compared with
`==`, the exact cancellation error texts, nil-connection-on-failure).
-/

namespace Creds

/-- Modelled from the spec: a SAN IP address, either IPv4 (four bytes)
or IPv6 (eight 16-bit groups), as carried in an X.509 certificate. -/
inductive IPAddr where
  | v4 (a b c d : Nat)
  | v6 (g0 g1 g2 g3 g4 g5 g6 g7 : Nat)
  deriving DecidableEq, Repr

/-- Lowercase hexadecimal rendering of a group, without leading zeros. -/
def hexStr (n : Nat) : String :=
  String.mk (Nat.toDigits 16 n)

/-- Scan for the leftmost longest run of zero groups.
`i` is the index of the head of `gs`; `curStart`/`curLen` describe the
zero run currently open, `bestStart`/`bestLen` the best run seen. -/
def zeroRunGo (i : Nat) (gs : List Nat)
    (curStart curLen bestStart bestLen : Nat) : Nat × Nat :=
  match gs with
  | [] => if bestLen < curLen then (curStart, curLen) else (bestStart, bestLen)
  | g :: rest =>
    if g = 0 then
      zeroRunGo (i + 1) rest (if curLen = 0 then i else curStart) (curLen + 1)
        bestStart bestLen
    else if bestLen < curLen then
      zeroRunGo (i + 1) rest 0 0 curStart curLen
    else
      zeroRunGo (i + 1) rest 0 0 bestStart bestLen

/-- Start index and length of the leftmost longest run of zeros. -/
def bestZeroRun (gs : List Nat) : Nat × Nat :=
  zeroRunGo 0 gs 0 0 0 0

/-- Modelled from the spec: canonical textual form of an IPv6 address
(missing `creds.go` renders SAN IPs with the platform's canonical IP
formatter): lowercase hex groups without leading zeros, the leftmost
longest run of two or more zero groups compressed to `::`. -/
def ipv6String (gs : List Nat) : String :=
  let run := bestZeroRun gs
  if 2 ≤ run.2 then
    String.intercalate ":" ((gs.take run.1).map hexStr) ++ "::" ++
      String.intercalate ":" ((gs.drop (run.1 + run.2)).map hexStr)
  else
    String.intercalate ":" (gs.map hexStr)

/-- Modelled from the spec: canonical dotted-decimal form of an IPv4
address. -/
def ipv4String (a b c d : Nat) : String :=
  toString a ++ "." ++ toString b ++ "." ++ toString c ++ "." ++ toString d

/-- Modelled from the spec: the canonical textual representation of a
SAN IP address, for both IPv4 and IPv6 (spec §4.1 step 3). -/
def ipCanonical : IPAddr → String
  | .v4 a b c d => ipv4String a b c d
  | .v6 a b c d e f g h => ipv6String [a, b, c, d, e, f, g, h]

/-- Modelled from the spec: the parts of an X.509 certificate the
credential layer reads — the Common Name and the SANs (DNS names and
IP addresses). `creds.go` is missing from the sources. -/
structure Certificate where
  commonName : String
  dnsNames : List String
  ipAddresses : List IPAddr
  deriving DecidableEq, Repr

/-- Modelled from the spec: a completed TLS connection state — the
peer certificate chain (leaf first) and the negotiated server name. -/
structure ConnectionState where
  peerCertificates : List Certificate
  serverName : String
  deriving DecidableEq, Repr

/-- Modelled from the spec: the sentinel error values the credential
layer exposes (`NilServerConfigErr`, `EmptyPeerCertsErr`,
`SANNotAcceptedErr` in `creds.go`, compared by `==` in the test). -/
inductive CredErr where
  | NilServerConfigErr
  | EmptyPeerCertsErr
  | SANNotAcceptedErr
  deriving DecidableEq, Repr

/-- Modelled from the spec: the TLS configuration owned by a
credential.  Only the fields the claims touch are represented; the
peer-identity check never reads it. -/
structure TLSConfig where
  serverName : String
  deriving DecidableEq, Repr

/-- Modelled from the spec: the allow-list. `none` is the Go `nil`
map ("accept any authenticated peer"); `some l` is a finite set of
textual identities, `some []` the empty set ("accept none"). -/
def AllowedSANs : Type := Option (List String)

/-- Modelled from the spec: the server credential record —
a TLS server configuration plus the captured allow-list
(`serverTransportCredentials` in `creds.go`). -/
structure ServerTransportCredentials where
  serverTLSConfig : TLSConfig
  acceptedSANs : Option (List String)
  deriving DecidableEq, Repr

/-- Character-wise lower-casing of a DNS name (spec §4.1 step 3:
"DNS names lower-cased"). -/
def strLower (s : String) : String :=
  String.mk (s.data.map Char.toLower)

/-- All SANs of a certificate in normalized textual form: DNS names
lower-cased, IP addresses in canonical textual form (spec §4.1 3). -/
def normalizedSANs (c : Certificate) : List String :=
  c.dnsNames.map strLower ++ c.ipAddresses.map ipCanonical

/-- Modelled from the spec: the peer-identity check `validateClient`
of the missing `creds.go` (spec §4.1): nil allow-list accepts
immediately; an empty peer chain is `EmptyPeerCertsErr`; otherwise
accept iff some normalized SAN of the leaf (index 0) is in the
allow-list, else `SANNotAcceptedErr`.  `none` is success. -/
def ServerTransportCredentials.validateClient
    (creds : ServerTransportCredentials) (s : ConnectionState) :
    Option CredErr :=
  match creds.acceptedSANs with
  | none => none
  | some accepted =>
    match s.peerCertificates with
    | [] => some .EmptyPeerCertsErr
    | leaf :: _ =>
      if (normalizedSANs leaf).any (fun san => accepted.contains san) then
        none
      else
        some .SANNotAcceptedErr

/-- Modelled from the spec: `NewServerCredentials(tlsConfig,
allowedPeers)` of the missing `creds.go` — construction fails with
`NilServerConfigErr` when the TLS configuration is nil, and otherwise
captures the configuration and allow-list unchanged (spec §6). -/
def NewServerCredentials (tlsConfig : Option TLSConfig)
    (allowedSANs : Option (List String)) :
    Except CredErr ServerTransportCredentials :=
  match tlsConfig with
  | none => .error .NilServerConfigErr
  | some cfg => .ok ⟨cfg, allowedSANs⟩

/-- Modelled from the spec: the host portion of the RPC authority
string, used as the ServerName of the missing `creds.go` client
handshake: everything before the first colon for `host:port`, the
whole string for a bare `host` (spec §4.3, authority handling). -/
def hostOf (authority : String) : String :=
  String.mk (authority.data.takeWhile (fun c => c ≠ ':'))

/-- Modelled from the spec: the two ways the caller's context can
fire during a client handshake (spec §4.3). -/
inductive CtxEvent where
  | deadlineExceeded
  | canceled
  deriving DecidableEq, Repr

/-- The text of the underlying context error, as Go renders it. -/
def CtxEvent.errText : CtxEvent → String
  | .deadlineExceeded => "context deadline exceeded"
  | .canceled => "context canceled"

/-- Modelled from the spec: the eventual outcome of the blocking TLS
client handshake activity: success with the peer certificates learned
from the wire, or a TLS error. -/
inductive ClientTLSOutcome where
  | ok (peerCertificates : List Certificate)
  | fail (errText : String)
  deriving DecidableEq, Repr

/-- Modelled from the spec: the outcome of the blocking TLS server
handshake: success with the completed connection state, or a TLS
error. -/
inductive ServerTLSOutcome where
  | ok (s : ConnectionState)
  | fail (errText : String)
  deriving DecidableEq, Repr

/-- Modelled from the spec: which of the two racing activities of the
client handshake finishes first — the TLS handshake or the caller's
context (spec §4.3 cancellation semantics). -/
inductive RaceWinner where
  | handshake
  | ctx (e : CtxEvent)
  deriving DecidableEq, Repr

/-- What a handshake entry point returns, plus how many times the
credential closed the raw connection.  The secured connection and the
AuthInfo are abstracted by the TLS connection state they carry. -/
structure HandshakeResult where
  conn : Option ConnectionState
  authInfo : Option ConnectionState
  err : Option String
  rawCloses : Nat
  deriving DecidableEq, Repr

/-- Modelled from the spec: `ClientHandshake(ctx, authority, rawConn)`
of the missing `creds.go` (spec §4.3).  The race between the TLS
handshake activity and the context is serialized by `winner`.  On
context-wins the raw connection is closed, the handshake activity's
eventual `outcome` is discarded, and the error text is the prefix
`boulder/grpc/creds: ` followed by the context error.  On
handshake-wins with failure the raw connection is closed and the TLS
error returned; on success the secured connection's state carries the
peer certificates and ServerName `hostOf authority`. -/
def clientHandshake (authority : String) (outcome : ClientTLSOutcome)
    (winner : RaceWinner) : HandshakeResult :=
  match winner with
  | .ctx e =>
    { conn := none, authInfo := none,
      err := some ("boulder/grpc/creds: " ++ e.errText), rawCloses := 1 }
  | .handshake =>
    match outcome with
    | .fail e => { conn := none, authInfo := none, err := some e, rawCloses := 1 }
    | .ok certs =>
      let st : ConnectionState := ⟨certs, hostOf authority⟩
      { conn := some st, authInfo := some st, err := none, rawCloses := 0 }

/-- A server handshake error: either the TLS engine's error, surfaced
verbatim, or a peer-identity rejection sentinel. -/
inductive ServerErr where
  | tls (errText : String)
  | identity (e : CredErr)
  deriving DecidableEq, Repr

/-- What `ServerHandshake` returns, plus how many times the credential
closed the connection it owned. -/
structure ServerHandshakeResult where
  conn : Option ConnectionState
  authInfo : Option ConnectionState
  err : Option ServerErr
  connCloses : Nat
  deriving DecidableEq, Repr

/-- Modelled from the spec: `ServerHandshake(rawConn)` of the missing
`creds.go` (spec §4.2): drive the TLS server handshake; on TLS failure
close the connection and surface the error verbatim; on success run
`validateClient` and, on rejection, close the connection and return
the rejection; on full success return the secured connection and
AuthInfo. -/
def serverHandshake (creds : ServerTransportCredentials)
    (outcome : ServerTLSOutcome) : ServerHandshakeResult :=
  match outcome with
  | .fail e => { conn := none, authInfo := none, err := some (.tls e), connCloses := 1 }
  | .ok st =>
    match creds.validateClient st with
    | some e => { conn := none, authInfo := none, err := some (.identity e), connCloses := 1 }
    | none => { conn := some st, authInfo := some st, err := none, connCloses := 0 }

/-- Helper: `takeWhile` passes over a prefix on which the predicate
holds everywhere. -/
theorem takeWhile_append_of_forall (p : Char → Bool) (l1 l2 : List Char)
    (h : ∀ c ∈ l1, p c = true) :
    (l1 ++ l2).takeWhile p = l1 ++ l2.takeWhile p := by
  induction l1 with
  | nil => simp
  | cons a l ih =>
    have ha := h a (List.mem_cons_self a l)
    have hl : ∀ c ∈ l, p c = true := fun c hc => h c (List.mem_cons_of_mem a hc)
    simp [List.takeWhile_cons, ha, ih hl]

/-- Helper: `takeWhile` keeps a list on which the predicate holds
everywhere. -/
theorem takeWhile_of_forall (p : Char → Bool) (l : List Char)
    (h : ∀ c ∈ l, p c = true) : l.takeWhile p = l := by
  have := takeWhile_append_of_forall p l [] h
  simpa using this

/-- Claim C2: for every TLS connection state `s`, including one with
zero peer certificates, `validateClient` with a nil allow-list
succeeds — no `EmptyPeerCertsErr` even for an empty peer chain. -/
theorem validateClient_nil_allowlist_accepts
    (cfg : TLSConfig) (s : ConnectionState) :
    (ServerTransportCredentials.mk cfg none).validateClient s = none := rfl

/-- Claim C3: for every state with an empty peer certificate chain and
every non-nil allow-list, `validateClient` returns the
`EmptyPeerCertsErr` sentinel. -/
theorem validateClient_empty_chain_rejected
    (cfg : TLSConfig) (A : List String) (sn : String) :
    (ServerTransportCredentials.mk cfg (some A)).validateClient
      ⟨[], sn⟩ = some CredErr.EmptyPeerCertsErr := rfl

/-- Claim C1: for every completed state with a non-empty peer chain
and every non-nil allow-list `A`, `validateClient` succeeds iff some
normalized SAN of the leaf certificate (index 0) is a member of `A`;
in particular the empty allow-list rejects every such peer. -/
theorem validateClient_success_iff_san_member
    (cfg : TLSConfig) (A : List String) (leaf : Certificate)
    (rest : List Certificate) (sn : String) :
    ((ServerTransportCredentials.mk cfg (some A)).validateClient
        ⟨leaf :: rest, sn⟩ = none ↔
      ∃ san ∈ normalizedSANs leaf, san ∈ A) ∧
    (ServerTransportCredentials.mk cfg (some [])).validateClient
        ⟨leaf :: rest, sn⟩ = some CredErr.SANNotAcceptedErr := by
  have hiff : ((normalizedSANs leaf).any (fun san => A.contains san) = true) ↔
      ∃ san ∈ normalizedSANs leaf, san ∈ A := by
    constructor
    · intro hany
      obtain ⟨x, hx, hmem⟩ := List.any_eq_true.mp hany
      exact ⟨x, hx, List.elem_iff.mp hmem⟩
    · intro ⟨x, hx, hmem⟩
      exact List.any_eq_true.mpr ⟨x, hx, List.elem_iff.mpr hmem⟩
  constructor
  · show (if (normalizedSANs leaf).any (fun san => A.contains san) = true then
        (none : Option CredErr) else some CredErr.SANNotAcceptedErr) = none ↔
      ∃ san ∈ normalizedSANs leaf, san ∈ A
    split_ifs with hc
    · exact iff_of_true rfl (hiff.mp hc)
    · exact iff_of_false (by simp) (fun hx => hc (hiff.mpr hx))
  · show (if (normalizedSANs leaf).any
          (fun san => ([] : List String).contains san) = true then
        (none : Option CredErr) else some CredErr.SANNotAcceptedErr) =
      some CredErr.SANNotAcceptedErr
    rw [if_neg]
    intro hany
    obtain ⟨x, _, hmem⟩ := List.any_eq_true.mp hany
    exact List.not_mem_nil x (List.elem_iff.mp hmem)

/-- Claim C5: construction with a nil TLS configuration fails with the
`NilServerConfigErr` sentinel and yields no credential; the TLS
configuration is never consulted at check time — `validateClient` is
independent of it. -/
theorem newServerCredentials_nil_config_fails
    (A : Option (List String)) (cfg cfg2 : TLSConfig)
    (sans : Option (List String)) (s : ConnectionState) :
    NewServerCredentials none A = Except.error CredErr.NilServerConfigErr ∧
    (ServerTransportCredentials.mk cfg sans).validateClient s =
      (ServerTransportCredentials.mk cfg2 sans).validateClient s :=
  ⟨rfl, rfl⟩

/-- Claim C4: when the context fires before the TLS handshake
completes, `ClientHandshake` returns a nil connection and the exact
error text `boulder/grpc/creds: context deadline exceeded` on deadline
expiry, or `boulder/grpc/creds: context canceled` on explicit
cancellation. -/
theorem clientHandshake_ctx_error_texts
    (authority : String) (outcome : ClientTLSOutcome) :
    ((clientHandshake authority outcome (.ctx .deadlineExceeded)).conn = none ∧
      (clientHandshake authority outcome (.ctx .deadlineExceeded)).err =
        some "boulder/grpc/creds: context deadline exceeded") ∧
    ((clientHandshake authority outcome (.ctx .canceled)).conn = none ∧
      (clientHandshake authority outcome (.ctx .canceled)).err =
        some "boulder/grpc/creds: context canceled") :=
  ⟨⟨rfl, rfl⟩, ⟨rfl, rfl⟩⟩

/-- Claim C6: `ClientHandshake` derives ServerName `host` from an
authority of the form `host:port` or bare `host` — the port, if
present, is discarded — and a successful handshake's TLS state has
exactly that ServerName. -/
theorem clientHandshake_servername_is_authority_host
    (host port : String) (certs : List Certificate)
    (h : ∀ c ∈ host.data, c ≠ ':') :
    hostOf (host ++ ":" ++ port) = host ∧
    hostOf host = host ∧
    (clientHandshake (host ++ ":" ++ port)
        (ClientTLSOutcome.ok certs) RaceWinner.handshake).conn =
      some ⟨certs, host⟩ ∧
    (clientHandshake host (ClientTLSOutcome.ok certs)
        RaceWinner.handshake).conn = some ⟨certs, host⟩ := by
  have hp : ∀ c ∈ host.data, (fun c => decide (c ≠ ':')) c = true := by
    intro c hc
    simpa using h c hc
  have h1 : hostOf (host ++ ":" ++ port) = host := by
    unfold hostOf
    rw [String.data_append, String.data_append]
    rw [show (":" : String).data = [':'] from rfl, List.append_assoc]
    rw [takeWhile_append_of_forall _ _ _ hp]
    simp [List.takeWhile_cons]
  have h2 : hostOf host = host := by
    unfold hostOf
    rw [takeWhile_of_forall _ _ hp]
  refine ⟨h1, h2, ?_, ?_⟩
  · simp [clientHandshake, h1]
  · simp [clientHandshake, h2]

/-- Witness for C6 at the concrete authorities of the test,
`A:2020` and `A`. -/
theorem clientHandshake_servername_is_authority_host_witness :
    (∀ c ∈ ("A" : String).data, c ≠ ':') ∧
    (hostOf ("A" ++ ":" ++ "2020") = "A" ∧
      hostOf "A" = "A" ∧
      (clientHandshake ("A" ++ ":" ++ "2020")
          (ClientTLSOutcome.ok []) RaceWinner.handshake).conn =
        some ⟨[], "A"⟩ ∧
      (clientHandshake "A" (ClientTLSOutcome.ok [])
          RaceWinner.handshake).conn = some ⟨[], "A"⟩) :=
  ⟨by decide,
    clientHandshake_servername_is_authority_host "A" "2020" [] (by decide)⟩

/-- Claim C7: a failed handshake — server-side (TLS failure or
peer-identity rejection) or client-side (TLS failure or context
fired) — returns a nil secured connection, and the credential closes
the connection it owned exactly once. -/
theorem failed_handshake_nil_conn_closed_once
    (creds : ServerTransportCredentials) (so : ServerTLSOutcome)
    (authority : String) (co : ClientTLSOutcome) (w : RaceWinner) :
    ((serverHandshake creds so).err.isSome = true →
      (serverHandshake creds so).conn = none ∧
        (serverHandshake creds so).connCloses = 1) ∧
    ((clientHandshake authority co w).err.isSome = true →
      (clientHandshake authority co w).conn = none ∧
        (clientHandshake authority co w).rawCloses = 1) := by
  constructor
  · cases so with
    | fail e => exact fun _ => ⟨rfl, rfl⟩
    | ok st =>
      cases h : creds.validateClient st with
      | none => simp [serverHandshake, h]
      | some e => simp [serverHandshake, h]
  · cases w with
    | ctx e => exact fun _ => ⟨rfl, rfl⟩
    | handshake =>
      cases co with
      | ok certs => simp [clientHandshake]
      | fail e => exact fun _ => ⟨rfl, rfl⟩

/-- Witness for C7 at a concrete failing server handshake and a
concrete failing client handshake. -/
theorem failed_handshake_nil_conn_closed_once_witness :
    ((serverHandshake ⟨⟨""⟩, none⟩ (ServerTLSOutcome.fail "bad tls")).err.isSome
        = true ∧
      (serverHandshake ⟨⟨""⟩, none⟩ (ServerTLSOutcome.fail "bad tls")).conn
        = none ∧
      (serverHandshake ⟨⟨""⟩, none⟩ (ServerTLSOutcome.fail "bad tls")).connCloses
        = 1) ∧
    ((clientHandshake "A:2020" (ClientTLSOutcome.fail "bad tls")
        RaceWinner.handshake).err.isSome = true ∧
      (clientHandshake "A:2020" (ClientTLSOutcome.fail "bad tls")
        RaceWinner.handshake).conn = none ∧
      (clientHandshake "A:2020" (ClientTLSOutcome.fail "bad tls")
        RaceWinner.handshake).rawCloses = 1) :=
  ⟨⟨rfl,
    (failed_handshake_nil_conn_closed_once ⟨⟨""⟩, none⟩
      (ServerTLSOutcome.fail "bad tls") "A:2020"
      (ClientTLSOutcome.fail "bad tls") RaceWinner.handshake).1 rfl⟩,
   ⟨rfl,
    (failed_handshake_nil_conn_closed_once ⟨⟨""⟩, none⟩
      (ServerTLSOutcome.fail "bad tls") "A:2020"
      (ClientTLSOutcome.fail "bad tls") RaceWinner.handshake).2 rfl⟩⟩

/-- Claim C8: `validateClient` never consults the Common Name — two
leaf certificates with identical SANs but different Common Names get
the same result for every allow-list — and a peer whose Common Name
is allow-listed but whose SANs are not is rejected with
`SANNotAcceptedErr`. -/
theorem validateClient_ignores_common_name
    (cfg : TLSConfig) (allowed : Option (List String)) (A : List String)
    (cn cn2 cn3 : String) (dns : List String) (ips : List IPAddr)
    (rest rest2 rest3 : List Certificate) (sn sn2 sn3 : String) :
    ((ServerTransportCredentials.mk cfg allowed).validateClient
        ⟨⟨cn, dns, ips⟩ :: rest, sn⟩ =
      (ServerTransportCredentials.mk cfg allowed).validateClient
        ⟨⟨cn2, dns, ips⟩ :: rest2, sn2⟩) ∧
    (cn3 ∈ A → (∀ san ∈ normalizedSANs ⟨cn3, dns, ips⟩, san ∉ A) →
      (ServerTransportCredentials.mk cfg (some A)).validateClient
        ⟨⟨cn3, dns, ips⟩ :: rest3, sn3⟩ = some CredErr.SANNotAcceptedErr) := by
  constructor
  · cases allowed with
    | none => rfl
    | some A2 => rfl
  · intro _ hsans
    show (if (normalizedSANs ⟨cn3, dns, ips⟩).any
          (fun san => A.contains san) = true then
        (none : Option CredErr) else some CredErr.SANNotAcceptedErr) =
      some CredErr.SANNotAcceptedErr
    rw [if_neg]
    intro hany
    obtain ⟨x, hx, hmem⟩ := List.any_eq_true.mp hany
    exact hsans x hx (List.elem_iff.mp hmem)

/-- Witness for C8: a peer whose Common Name `boulder-client` is on
the allow-list but whose only SAN is not, is rejected. -/
theorem validateClient_ignores_common_name_witness :
    ("boulder-client" ∈ (["boulder-client"] : List String)) ∧
    (∀ san ∈ normalizedSANs ⟨"boulder-client", ["test-root"], []⟩,
      san ∉ (["boulder-client"] : List String)) ∧
    (ServerTransportCredentials.mk ⟨""⟩ (some ["boulder-client"])).validateClient
        ⟨[⟨"boulder-client", ["test-root"], []⟩], ""⟩ =
      some CredErr.SANNotAcceptedErr :=
  ⟨by decide, by decide,
    (validateClient_ignores_common_name ⟨""⟩ none ["boulder-client"]
        "" "" "boulder-client" ["test-root"] [] [] [] [] "" "" "").2
      (by decide) (by decide)⟩

/-- Claim C9: in the race between the TLS handshake activity and the
caller's context, exactly one outcome determines the result — on
context-wins the result is the context error, independent of the
handshake activity's eventual outcome, which is discarded after the
raw connection is closed; on handshake-wins the result is the
handshake's outcome — and the raw connection is never closed more
than once. -/
theorem clientHandshake_race_exactly_one_outcome
    (authority : String) (o o2 : ClientTLSOutcome) (e : CtxEvent)
    (w : RaceWinner) (t : String) (certs : List Certificate) :
    (clientHandshake authority o w).rawCloses ≤ 1 ∧
    clientHandshake authority o (.ctx e) =
      clientHandshake authority o2 (.ctx e) ∧
    (clientHandshake authority o (.ctx e)).err =
      some ("boulder/grpc/creds: " ++ e.errText) ∧
    (clientHandshake authority o (.ctx e)).conn = none ∧
    (clientHandshake authority o (.ctx e)).rawCloses = 1 ∧
    (clientHandshake authority (ClientTLSOutcome.ok certs)
        RaceWinner.handshake).err = none ∧
    (clientHandshake authority (ClientTLSOutcome.ok certs)
        RaceWinner.handshake).conn =
      some ⟨certs, hostOf authority⟩ ∧
    (clientHandshake authority (ClientTLSOutcome.fail t)
        RaceWinner.handshake).err = some t := by
  refine ⟨?_, rfl, rfl, rfl, rfl, rfl, rfl, rfl⟩
  cases w with
  | ctx e2 => exact Nat.le_refl 1
  | handshake =>
    cases o with
    | ok certs2 => exact Nat.zero_le 1
    | fail t2 => exact Nat.le_refl 1

/-- Claim C10: the failure categories are exported sentinel values,
pairwise distinct and compared by equality: nil-config construction
returns exactly `NilServerConfigErr`, and `validateClient` either
succeeds or returns exactly `EmptyPeerCertsErr` or exactly
`SANNotAcceptedErr`. -/
theorem sentinel_errors_distinct_and_exact
    (A : Option (List String)) (creds : ServerTransportCredentials)
    (s : ConnectionState) :
    (CredErr.NilServerConfigErr ≠ CredErr.EmptyPeerCertsErr ∧
      CredErr.NilServerConfigErr ≠ CredErr.SANNotAcceptedErr ∧
      CredErr.EmptyPeerCertsErr ≠ CredErr.SANNotAcceptedErr) ∧
    NewServerCredentials none A = Except.error CredErr.NilServerConfigErr ∧
    (creds.validateClient s = none ∨
      creds.validateClient s = some CredErr.EmptyPeerCertsErr ∨
      creds.validateClient s = some CredErr.SANNotAcceptedErr) := by
  refine ⟨by decide, rfl, ?_⟩
  obtain ⟨cfg, sans⟩ := creds
  obtain ⟨chain, sn⟩ := s
  cases sans with
  | none => exact Or.inl rfl
  | some A2 =>
    cases chain with
    | nil => exact Or.inr (Or.inl rfl)
    | cons leaf rest =>
      by_cases hc : (normalizedSANs leaf).any (fun san => A2.contains san) = true
      · exact Or.inl (by
          show (if (normalizedSANs leaf).any (fun san => A2.contains san) = true
              then (none : Option CredErr) else some CredErr.SANNotAcceptedErr)
            = none
          rw [if_pos hc])
      · exact Or.inr (Or.inr (by
          show (if (normalizedSANs leaf).any (fun san => A2.contains san) = true
              then (none : Option CredErr) else some CredErr.SANNotAcceptedErr)
            = some CredErr.SANNotAcceptedErr
          rw [if_neg hc]))

end Creds
